import Mathlib

/-!
Verification of the tree-depth termination policy in `evco` (`src/gp/gen.rs`).

The Rust code is shallowly embedded: the policy struct `TreeGen` becomes a
Lean structure holding the mode and depth bounds, and the borrowed random
source (`rand 0.3`'s `Rng`) becomes an explicit `RandSource` value threaded
through every operation.  `usize` arithmetic is `Nat` reduced mod `2 ^ 64`
(the 64-bit target, release-mode wrapping), the `as u32` cast is reduction
mod `2 ^ 32`, and a Rust panic (the `assert!(low < high)` inside
`Rng::gen_range`) is `Option.none`.
-/

/-- Modulus of `usize` on the 64-bit reference target. -/
def USIZE_MOD : Nat := 2 ^ 64

/-- Modulus of `u32`; the code casts `depth_interval as u32`. -/
def U32_MOD : Nat := 2 ^ 32

/-- Wrapping `usize` subtraction `a - b` (release-mode two's-complement wrap),
for `a, b < USIZE_MOD`. -/
def usize_sub (a b : Nat) : Nat := (USIZE_MOD + a - b) % USIZE_MOD

/-- An abstract uniform random source: an unbounded entropy stream together
with the number of draws consumed so far.  Each primitive draw reads
`stream pos` and advances `pos`; this models `rand 0.3`'s deterministic
seeded generators, where every consumed value is a function of the seed. -/
structure RandSource where
  stream : Nat → Nat
  pos : Nat

/-- Consume one raw draw from the source. -/
def RandSource.next (s : RandSource) : Nat × RandSource :=
  (s.stream s.pos, ⟨s.stream, s.pos + 1⟩)

/-- Embedding of `rand 0.3`'s `Rng::gen_range(low, high)`: asserts
`low < high` (modelled as `none`, a panic) and otherwise consumes one draw
to return a uniform value in `[low, high)`. -/
def gen_range (low high : Nat) (s : RandSource) : Option (Nat × RandSource) :=
  if low < high then
    some (low + s.stream s.pos % (high - low), ⟨s.stream, s.pos + 1⟩)
  else
    none

/-- Embedding of `rand 0.3`'s `Rng::gen_weighted_bool(n)`, whose body is
`n <= 1 || self.gen_range(0, n) == 0`: true with probability `1/n`, with
`n <= 1` short-circuiting to `true` without consuming any entropy. -/
def gen_weighted_bool (n : Nat) (s : RandSource) : Option (Bool × RandSource) :=
  if n ≤ 1 then
    some (true, s)
  else
    (gen_range 0 n s).map (fun vs => (vs.1 == 0, vs.2))

/-- Embedding of `rand 0.3`'s `Rand for bool` (`gen::<u8>() & 1 == 1`):
one draw, result is its parity. -/
def gen_bool (s : RandSource) : Bool × RandSource :=
  (s.stream s.pos % 2 == 1, ⟨s.stream, s.pos + 1⟩)

/-- The tree generation mode in use (`TreeGenMode` in `gen.rs`). -/
inductive TreeGenMode where
  | Perfect (chosen_depth : Nat)
  | Full
  | FullRanged (chosen_depth : Nat)
deriving DecidableEq, Repr

/-- The policy struct `TreeGen` of `gen.rs`, minus the borrowed `rng` field,
which is threaded explicitly as a `RandSource`. -/
structure TreeGen where
  mode : TreeGenMode
  min_depth : Nat
  max_depth : Nat
deriving DecidableEq, Repr

/-- Embedding of `TreeGen::perfect`: draws `chosen_depth` with
`rng.gen_range(min_depth, max_depth + 1)` (the increment wrapping mod
`2 ^ 64`) and stores mode `Perfect(chosen_depth)`. -/
def TreeGen.perfect (s : RandSource) (min_depth max_depth : Nat) :
    Option (TreeGen × RandSource) :=
  (gen_range min_depth ((max_depth + 1) % USIZE_MOD) s).map
    (fun cs => (⟨TreeGenMode.Perfect cs.1, min_depth, max_depth⟩, cs.2))

/-- Embedding of `TreeGen::full`: stores mode `Full`, drawing nothing and
checking nothing. -/
def TreeGen.full (s : RandSource) (min_depth max_depth : Nat) :
    Option (TreeGen × RandSource) :=
  some (⟨TreeGenMode.Full, min_depth, max_depth⟩, s)

/-- Embedding of `TreeGen::full_ranged`: draws `chosen_depth` with
`rng.gen_range(min_depth, max_depth + 1)` and stores mode
`FullRanged(chosen_depth)`. -/
def TreeGen.full_ranged (s : RandSource) (min_depth max_depth : Nat) :
    Option (TreeGen × RandSource) :=
  (gen_range min_depth ((max_depth + 1) % USIZE_MOD) s).map
    (fun cs => (⟨TreeGenMode.FullRanged cs.1, min_depth, max_depth⟩, cs.2))

/-- Embedding of `TreeGen::half_and_half`: flips `rng.gen::<bool>()` and
delegates to `perfect` on true, `full_ranged` on false. -/
def TreeGen.half_and_half (s : RandSource) (min_depth max_depth : Nat) :
    Option (TreeGen × RandSource) :=
  let bs := gen_bool s
  if bs.1 then TreeGen.perfect bs.2 min_depth max_depth
  else TreeGen.full_ranged bs.2 min_depth max_depth

/-- Embedding of `TreeGen::have_reached_a_leaf`.  The Rust boolean
expressions short-circuit, so each `||` / `&&` becomes an `if` chain:
the weighted draw happens only when the ceiling test fails and
`current_depth >= min_depth` holds.  `depth_interval as u32` is the
reduction mod `2 ^ 32`. -/
def TreeGen.have_reached_a_leaf (tg : TreeGen) (current_depth : Nat)
    (s : RandSource) : Option (Bool × RandSource) :=
  match tg.mode with
  | TreeGenMode.Perfect chosen_depth =>
      some (current_depth == chosen_depth, s)
  | TreeGenMode.Full =>
      let depth_interval := usize_sub tg.max_depth tg.min_depth
      if current_depth = tg.max_depth then
        some (true, s)
      else if tg.min_depth ≤ current_depth then
        gen_weighted_bool (depth_interval % U32_MOD) s
      else
        some (false, s)
  | TreeGenMode.FullRanged chosen_depth =>
      let depth_interval := usize_sub chosen_depth tg.min_depth
      if current_depth = chosen_depth then
        some (true, s)
      else if tg.min_depth ≤ current_depth then
        gen_weighted_bool (depth_interval % U32_MOD) s
      else
        some (false, s)

/-- A policy value is `Constructed` when one of the four public constructors
can produce it from some source and bounds. -/
def Constructed (tg : TreeGen) : Prop :=
  ∃ s min_depth max_depth s',
    TreeGen.perfect s min_depth max_depth = some (tg, s') ∨
    TreeGen.full s min_depth max_depth = some (tg, s') ∨
    TreeGen.full_ranged s min_depth max_depth = some (tg, s') ∨
    TreeGen.half_and_half s min_depth max_depth = some (tg, s')

/-- Boolean value of a weighted draw read off the current source state,
without consuming it: matches the first component of `gen_weighted_bool`. -/
def weightedBoolVal (n : Nat) (s : RandSource) : Bool :=
  decide (n ≤ 1) || decide (s.stream s.pos % n = 0)

/-- The Full-mode leaf rule exactly as the claim words it: weighted draw
parameter is the untruncated `max_depth - min_depth`. -/
def specFullLeafVal (min_depth max_depth current_depth : Nat)
    (s : RandSource) : Bool :=
  decide (current_depth = max_depth) ||
    (decide (min_depth ≤ current_depth) &&
      weightedBoolVal (max_depth - min_depth) s)

/-- Fixed concrete source used for witnesses and counterexamples:
every raw draw yields `1`. -/
def srcOnes : RandSource := ⟨fun _ => 1, 0⟩

/-- Number of raw draws a `have_reached_a_leaf` call consumes, by mode:
none for `Perfect`; for `Full` (resp. `FullRanged`) one draw exactly when
the ceiling test fails, `min_depth <= current_depth`, and the truncated
interval is at least 2 (a weighted draw with parameter `<= 1`
short-circuits without touching the source). -/
def drawCount (tg : TreeGen) (current_depth : Nat) : Nat :=
  match tg.mode with
  | TreeGenMode.Perfect _ => 0
  | TreeGenMode.Full =>
      if current_depth = tg.max_depth ∨ current_depth < tg.min_depth ∨
          usize_sub tg.max_depth tg.min_depth % U32_MOD ≤ 1 then 0 else 1
  | TreeGenMode.FullRanged chosen_depth =>
      if current_depth = chosen_depth ∨ current_depth < tg.min_depth ∨
          usize_sub chosen_depth tg.min_depth % U32_MOD ≤ 1 then 0 else 1

/-- Wrapping subtraction agrees with truncated subtraction on in-range
operands. -/
theorem usize_sub_eq_sub (a b : Nat) (hba : b ≤ a) (ha : a < USIZE_MOD) :
    usize_sub a b = a - b := by
  unfold usize_sub
  have h1 : USIZE_MOD + a - b = USIZE_MOD + (a - b) := by omega
  rw [h1, Nat.add_mod_left]
  exact Nat.mod_eq_of_lt (by omega)

/-- A weighted draw always succeeds (never panics). -/
theorem gen_weighted_bool_isSome (n : Nat) (s : RandSource) :
    (gen_weighted_bool n s).isSome := by
  unfold gen_weighted_bool gen_range
  by_cases h : n ≤ 1
  · simp [h]
  · simp [h, Nat.pos_of_ne_zero (by omega : n ≠ 0)]

/-- Success of `gen_range` yields a value inside `[low, high)`. -/
theorem gen_range_mem (low high : Nat) (s : RandSource) (v : Nat)
    (s' : RandSource) (h : gen_range low high s = some (v, s')) :
    low ≤ v ∧ v < high := by
  unfold gen_range at h
  split at h
  · next hlt =>
      have hv : low + s.stream s.pos % (high - low) = v := by
        injection h with h1
        exact congrArg Prod.fst h1
      have hm : s.stream s.pos % (high - low) < high - low :=
        Nat.mod_lt _ (by omega)
      omega
  · exact absurd h (by simp)

/-- C5: a `Perfect(d)` policy answers `current_depth == d` and returns the
random source untouched: no entropy is consumed by the query. -/
theorem C5_perfect_leaf (tg : TreeGen) (d current_depth : Nat)
    (s : RandSource) (h : tg.mode = TreeGenMode.Perfect d) :
    tg.have_reached_a_leaf current_depth s
      = some (current_depth == d, s) := by
  unfold TreeGen.have_reached_a_leaf
  rw [h]

/-- Witness for C5 at `d = 2`, `current_depth = 2`. -/
theorem C5_perfect_leaf_witness :
    (⟨TreeGenMode.Perfect 2, 0, 3⟩ : TreeGen).mode = TreeGenMode.Perfect 2 ∧
    (⟨TreeGenMode.Perfect 2, 0, 3⟩ : TreeGen).have_reached_a_leaf 2 srcOnes
      = some (true, srcOnes) :=
  ⟨rfl, C5_perfect_leaf ⟨TreeGenMode.Perfect 2, 0, 3⟩ 2 2 srcOnes rfl⟩

/-- C9: with `min_depth = max_depth = m`, a `Full` policy is a leaf at
depth `m` on every call, for every source state, and the degenerate
weighted draw with parameter 0 is always true and consumes nothing. -/
theorem C9_zero_interval (m : Nat) (s : RandSource) :
    (⟨TreeGenMode.Full, m, m⟩ : TreeGen).have_reached_a_leaf m s
        = some (true, s) ∧
    gen_weighted_bool 0 s = some (true, s) := by
  constructor
  · unfold TreeGen.have_reached_a_leaf
    simp
  · unfold gen_weighted_bool
    simp

/-- C7: a `FullRanged(d)` policy makes exactly the same decision, with the
same draws and resulting source state, as a `Full` policy whose
`max_depth` is `d`, for the same `min_depth` and source state. -/
theorem C7_full_ranged_refines_full (d min_depth max_depth current_depth : Nat)
    (s : RandSource) (_h1 : min_depth ≤ d) (_h2 : d ≤ max_depth)
    (_h3 : current_depth ≤ d) :
    (⟨TreeGenMode.FullRanged d, min_depth, max_depth⟩ : TreeGen).have_reached_a_leaf
        current_depth s
      = (⟨TreeGenMode.Full, min_depth, d⟩ : TreeGen).have_reached_a_leaf
        current_depth s := rfl

/-- Witness for C7 at `d = 2`, bounds `[1, 4]`, `current_depth = 1`. -/
theorem C7_full_ranged_refines_full_witness :
    (1 : Nat) ≤ 2 ∧ (2 : Nat) ≤ 4 ∧ (1 : Nat) ≤ 2 ∧
    (⟨TreeGenMode.FullRanged 2, 1, 4⟩ : TreeGen).have_reached_a_leaf 1 srcOnes
      = (⟨TreeGenMode.Full, 1, 2⟩ : TreeGen).have_reached_a_leaf 1 srcOnes :=
  ⟨by decide, by decide, by decide,
    C7_full_ranged_refines_full 2 1 4 1 srcOnes (by decide) (by decide) (by decide)⟩

/-- C4: on any policy a constructor produced, `have_reached_a_leaf` is
total: the wrapping subtractions and the weighted draw never abort. -/
theorem C4_leaf_query_total (tg : TreeGen) (current_depth : Nat)
    (s : RandSource) (h : Constructed tg) :
    (tg.have_reached_a_leaf current_depth s).isSome := by
  obtain ⟨mode, mn, mx⟩ := tg
  cases mode with
  | Perfect d => simp [TreeGen.have_reached_a_leaf]
  | Full =>
      simp only [TreeGen.have_reached_a_leaf]
      split
      · simp
      · split
        · exact gen_weighted_bool_isSome _ _
        · simp
  | FullRanged d =>
      simp only [TreeGen.have_reached_a_leaf]
      split
      · simp
      · split
        · exact gen_weighted_bool_isSome _ _
        · simp

/-- Witness for C4 on a concrete `Full` policy built by `TreeGen.full`. -/
theorem C4_leaf_query_total_witness :
    Constructed ⟨TreeGenMode.Full, 0, 2⟩ ∧
    ((⟨TreeGenMode.Full, 0, 2⟩ : TreeGen).have_reached_a_leaf 1 srcOnes).isSome :=
  have hc : Constructed ⟨TreeGenMode.Full, 0, 2⟩ :=
    ⟨srcOnes, 0, 2, srcOnes, Or.inr (Or.inl rfl)⟩
  ⟨hc, C4_leaf_query_total ⟨TreeGenMode.Full, 0, 2⟩ 1 srcOnes hc⟩

/-- Mapping a weighted draw to its boolean value gives `weightedBoolVal`. -/
theorem gen_weighted_bool_fst (n : Nat) (s : RandSource) :
    (gen_weighted_bool n s).map Prod.fst = some (weightedBoolVal n s) := by
  unfold gen_weighted_bool gen_range weightedBoolVal
  by_cases h : n ≤ 1
  · simp [h]
  · have hn : 0 < n := by omega
    by_cases hz : s.stream s.pos % n = 0 <;> simp [h, hn, hz]

/-- Counterexample to C1: with `min_depth = 0`, `max_depth = 2 ^ 32` the
cast `depth_interval as u32` truncates the interval to 0, so the code
answers `true` at depth 0 on a source whose draw would make the claimed
untruncated weighted draw (parameter `2 ^ 32`) return `false`. -/
theorem C1_full_leaf_counterexample :
    ((⟨TreeGenMode.Full, 0, 2 ^ 32⟩ : TreeGen).have_reached_a_leaf 0
        srcOnes).map Prod.fst = some true ∧
    specFullLeafVal 0 (2 ^ 32) 0 srcOnes = false := by
  constructor
  · rfl
  · rfl

/-- C1 as amended: for `min_depth <= max_depth < 2 ^ 64`, the Full-mode
answer is `current_depth == max_depth`, or `current_depth >= min_depth`
and the weighted draw with the truncated parameter
`(max_depth - min_depth) mod 2 ^ 32` is true; nothing else. -/
theorem C1_full_leaf_amended (min_depth max_depth current_depth : Nat)
    (s : RandSource) (h1 : min_depth ≤ max_depth) (h2 : max_depth < USIZE_MOD) :
    ((⟨TreeGenMode.Full, min_depth, max_depth⟩ : TreeGen).have_reached_a_leaf
        current_depth s).map Prod.fst
      = some (decide (current_depth = max_depth) ||
          (decide (min_depth ≤ current_depth) &&
            weightedBoolVal ((max_depth - min_depth) % U32_MOD) s)) := by
  simp only [TreeGen.have_reached_a_leaf]
  rw [usize_sub_eq_sub max_depth min_depth h1 h2]
  by_cases hc : current_depth = max_depth
  · simp [hc]
  · by_cases hm : min_depth ≤ current_depth
    · simp only [hc, hm, if_false, if_true, decide_eq_true_eq, if_neg hc,
        if_pos hm]
      rw [gen_weighted_bool_fst]
      simp [hc, hm]
    · simp [hc, hm]

/-- Witness for C1 as amended, at bounds `[0, 3]`, depth 1. -/
theorem C1_full_leaf_amended_witness :
    (0 : Nat) ≤ 3 ∧ (3 : Nat) < USIZE_MOD ∧
    ((⟨TreeGenMode.Full, 0, 3⟩ : TreeGen).have_reached_a_leaf 1
        srcOnes).map Prod.fst
      = some (decide ((1 : Nat) = 3) || (decide ((0 : Nat) ≤ 1) &&
          weightedBoolVal ((3 - 0) % U32_MOD) srcOnes)) :=
  ⟨by decide, by decide, C1_full_leaf_amended 0 3 1 srcOnes (by decide) (by decide)⟩

/-- Counterexample to C2: a `Full` policy with `min_depth = max_depth = 0`
queried at depth 1 — strictly above the ceiling — answers `true` (the
truncated zero interval makes the weighted draw unconditionally true),
not the claimed unconditional `false`. -/
theorem C2_above_ceiling_counterexample :
    (⟨TreeGenMode.Full, 0, 0⟩ : TreeGen).max_depth < 1 ∧
    ((⟨TreeGenMode.Full, 0, 0⟩ : TreeGen).have_reached_a_leaf 1
        srcOnes).map Prod.fst = some true := by
  constructor
  · decide
  · rfl

/-- C2 as amended: only `Perfect` guarantees `false` above its ceiling:
for every `current_depth > chosen_depth` the answer is `false` with the
source untouched, whatever its state. -/
theorem C2_above_ceiling_amended (d min_depth max_depth current_depth : Nat)
    (s : RandSource) (h : d < current_depth) :
    (⟨TreeGenMode.Perfect d, min_depth, max_depth⟩ : TreeGen).have_reached_a_leaf
        current_depth s = some (false, s) := by
  simp only [TreeGen.have_reached_a_leaf]
  rw [show (current_depth == d) = false from beq_eq_false_iff_ne.mpr (by omega)]

/-- Witness for C2 as amended, at `chosen_depth = 1`, depth 2. -/
theorem C2_above_ceiling_amended_witness :
    (1 : Nat) < 2 ∧
    (⟨TreeGenMode.Perfect 1, 0, 3⟩ : TreeGen).have_reached_a_leaf 2 srcOnes
      = some (false, srcOnes) :=
  ⟨by decide, C2_above_ceiling_amended 1 0 3 2 srcOnes (by decide)⟩

/-- Counterexample to C3: `TreeGen::full` called with
`min_depth = 1 > 0 = max_depth` succeeds and hands back the invalid
bounds unchanged — no error, no swap, no clamp. -/
theorem C3_invalid_bounds_counterexample :
    (0 : Nat) < 1 ∧
    TreeGen.full srcOnes 1 0 = some (⟨TreeGenMode.Full, 1, 0⟩, srcOnes) :=
  ⟨by decide, rfl⟩

/-- C3 as amended: with `min_depth > max_depth`, `perfect`, `full_ranged`
and `half_and_half` all abort at construction (the range draw's
`low < high` assertion), while `full` succeeds without any validation. -/
theorem C3_invalid_bounds_amended (min_depth max_depth : Nat) (s : RandSource)
    (h1 : max_depth < min_depth) (h2 : min_depth < USIZE_MOD) :
    TreeGen.perfect s min_depth max_depth = none ∧
    TreeGen.full_ranged s min_depth max_depth = none ∧
    TreeGen.half_and_half s min_depth max_depth = none ∧
    (TreeGen.full s min_depth max_depth).isSome := by
  have hmod : (max_depth + 1) % USIZE_MOD = max_depth + 1 :=
    Nat.mod_eq_of_lt (by omega)
  have hr : ∀ s' : RandSource,
      gen_range min_depth ((max_depth + 1) % USIZE_MOD) s' = none := by
    intro s'
    unfold gen_range
    rw [hmod, if_neg (by omega)]
  refine ⟨?_, ?_, ?_, ?_⟩
  · unfold TreeGen.perfect
    rw [hr]
    rfl
  · unfold TreeGen.full_ranged
    rw [hr]
    rfl
  · simp only [TreeGen.half_and_half]
    split
    · unfold TreeGen.perfect
      rw [hr]
      rfl
    · unfold TreeGen.full_ranged
      rw [hr]
      rfl
  · rfl

/-- Witness for C3 as amended, at `min_depth = 1`, `max_depth = 0`. -/
theorem C3_invalid_bounds_amended_witness :
    (0 : Nat) < 1 ∧ (1 : Nat) < USIZE_MOD ∧
    (TreeGen.perfect srcOnes 1 0 = none ∧
     TreeGen.full_ranged srcOnes 1 0 = none ∧
     TreeGen.half_and_half srcOnes 1 0 = none ∧
     (TreeGen.full srcOnes 1 0).isSome) :=
  ⟨by decide, by decide, C3_invalid_bounds_amended 1 0 srcOnes (by decide) (by decide)⟩

/-- Counterexample to C8: a `Full` policy with bounds `[0, 2]` queried at
depth 3 — outside the claimed window `[0, 2)` — still consumes one draw:
the source position advances from 0 to 1. -/
theorem C8_draws_counterexample :
    ¬ (3 < 2) ∧
    ((⟨TreeGenMode.Full, 0, 2⟩ : TreeGen).have_reached_a_leaf 3 srcOnes).map
        (fun r => r.2.pos) = some 1 := by
  constructor
  · decide
  · rfl

/-- C8 as amended: a query never touches the entropy stream itself, and it
advances the position by `drawCount`: zero for `Perfect`; for `Full`
(resp. `FullRanged`) one exactly when the ceiling test fails,
`min_depth <= current_depth` — including depths above the ceiling — and
the truncated interval exceeds 1.  The policy's mode and bounds are not
part of the result, so no call changes them. -/
theorem C8_draws_amended (tg : TreeGen) (current_depth : Nat) (s : RandSource) :
    (tg.have_reached_a_leaf current_depth s).map (fun r => r.2.stream)
        = some s.stream ∧
    (tg.have_reached_a_leaf current_depth s).map (fun r => r.2.pos)
        = some (s.pos + drawCount tg current_depth) := by
  obtain ⟨mode, mn, mx⟩ := tg
  cases mode with
  | Perfect d => simp [TreeGen.have_reached_a_leaf, drawCount]
  | Full =>
      by_cases hc : current_depth = mx
      · simp [TreeGen.have_reached_a_leaf, drawCount, hc]
      · by_cases hm : mn ≤ current_depth
        · by_cases hn : usize_sub mx mn % U32_MOD ≤ 1
          · simp [TreeGen.have_reached_a_leaf, drawCount, gen_weighted_bool,
              hc, hm, hn]
          · simp [TreeGen.have_reached_a_leaf, drawCount, gen_weighted_bool,
              gen_range, hc, hm, hn, Nat.lt_of_lt_of_le (by omega : 0 < 2)
                (by omega : 2 ≤ usize_sub mx mn % U32_MOD),
              (show ¬ current_depth < mn by omega)]
        · simp [TreeGen.have_reached_a_leaf, drawCount, hc, hm,
            Nat.lt_of_not_le hm]
  | FullRanged d =>
      by_cases hc : current_depth = d
      · simp [TreeGen.have_reached_a_leaf, drawCount, hc]
      · by_cases hm : mn ≤ current_depth
        · by_cases hn : usize_sub d mn % U32_MOD ≤ 1
          · simp [TreeGen.have_reached_a_leaf, drawCount, gen_weighted_bool,
              hc, hm, hn]
          · simp [TreeGen.have_reached_a_leaf, drawCount, gen_weighted_bool,
              gen_range, hc, hm, hn, Nat.lt_of_lt_of_le (by omega : 0 < 2)
                (by omega : 2 ≤ usize_sub d mn % U32_MOD),
              (show ¬ current_depth < mn by omega)]
        · simp [TreeGen.have_reached_a_leaf, drawCount, hc, hm,
            Nat.lt_of_not_le hm]

/-- C10: at `max_depth = usize::MAX` the increment `max_depth + 1` wraps
to 0 mod `2 ^ 64`, the range draw's `low < high` assertion fails, and
neither `perfect` nor `full_ranged` can produce a policy at all. -/
theorem C10_usize_max_overflow (min_depth max_depth : Nat) (s : RandSource)
    (h : max_depth = USIZE_MOD - 1) :
    TreeGen.perfect s min_depth max_depth = none ∧
    TreeGen.full_ranged s min_depth max_depth = none := by
  subst h
  have hpos : 0 < USIZE_MOD := by decide
  have hmod : (USIZE_MOD - 1 + 1) % USIZE_MOD = 0 := by
    rw [Nat.sub_add_cancel (by omega), Nat.mod_self]
  have hr : gen_range min_depth ((USIZE_MOD - 1 + 1) % USIZE_MOD) s = none := by
    unfold gen_range
    rw [hmod, if_neg (by omega)]
  constructor
  · unfold TreeGen.perfect
    rw [hr]
    rfl
  · unfold TreeGen.full_ranged
    rw [hr]
    rfl

/-- Witness for C10 at `min_depth = 0`, `max_depth = 2 ^ 64 - 1`. -/
theorem C10_usize_max_overflow_witness :
    (2 ^ 64 - 1 : Nat) = USIZE_MOD - 1 ∧
    TreeGen.perfect srcOnes 0 (2 ^ 64 - 1) = none :=
  ⟨rfl, (C10_usize_max_overflow 0 (2 ^ 64 - 1) srcOnes rfl).1⟩

/-- C6: a successful `perfect` or `full_ranged` construction at bounds
`min_depth <= max_depth` stores those exact bounds and a mode carrying a
`chosen_depth` inside `[min_depth, max_depth]`; and every depth in the
inclusive range is attainable as the `chosen_depth`, both bounds
included. -/
theorem C6_chosen_depth_in_range (min_depth max_depth d : Nat)
    (s s' : RandSource) (tg : TreeGen) (hmm : min_depth ≤ max_depth) :
    (TreeGen.perfect s min_depth max_depth = some (tg, s') →
      tg.min_depth = min_depth ∧ tg.max_depth = max_depth ∧
      ∃ c, tg.mode = TreeGenMode.Perfect c ∧ min_depth ≤ c ∧ c ≤ max_depth) ∧
    (TreeGen.full_ranged s min_depth max_depth = some (tg, s') →
      tg.min_depth = min_depth ∧ tg.max_depth = max_depth ∧
      ∃ c, tg.mode = TreeGenMode.FullRanged c ∧ min_depth ≤ c ∧ c ≤ max_depth) ∧
    (min_depth ≤ d → d ≤ max_depth → max_depth + 1 < USIZE_MOD →
      ∃ tg₁ s₂, TreeGen.perfect ⟨fun _ => d - min_depth, 0⟩ min_depth max_depth
          = some (tg₁, s₂) ∧ tg₁.mode = TreeGenMode.Perfect d) ∧
    (min_depth ≤ d → d ≤ max_depth → max_depth + 1 < USIZE_MOD →
      ∃ tg₂ s₃, TreeGen.full_ranged ⟨fun _ => d - min_depth, 0⟩ min_depth
          max_depth = some (tg₂, s₃) ∧ tg₂.mode = TreeGenMode.FullRanged d) := by
  refine ⟨?_, ?_, ?_, ?_⟩
  · intro h
    unfold TreeGen.perfect at h
    rw [Option.map_eq_some'] at h
    obtain ⟨⟨v, s₂⟩, hgr, hf⟩ := h
    obtain ⟨hv, hmem⟩ := gen_range_mem _ _ _ _ _ hgr
    have hup : v ≤ max_depth := by
      have := Nat.mod_le (max_depth + 1) USIZE_MOD
      omega
    injection hf with hf1 hf2
    subst hf1
    exact ⟨rfl, rfl, v, rfl, hv, hup⟩
  · intro h
    unfold TreeGen.full_ranged at h
    rw [Option.map_eq_some'] at h
    obtain ⟨⟨v, s₂⟩, hgr, hf⟩ := h
    obtain ⟨hv, hmem⟩ := gen_range_mem _ _ _ _ _ hgr
    have hup : v ≤ max_depth := by
      have := Nat.mod_le (max_depth + 1) USIZE_MOD
      omega
    injection hf with hf1 hf2
    subst hf1
    exact ⟨rfl, rfl, v, rfl, hv, hup⟩
  · intro hd1 hd2 hM
    have hmod : (max_depth + 1) % USIZE_MOD = max_depth + 1 :=
      Nat.mod_eq_of_lt hM
    have hval : min_depth + (d - min_depth) % (max_depth + 1 - min_depth) = d := by
      rw [Nat.mod_eq_of_lt (by omega)]
      omega
    refine ⟨⟨TreeGenMode.Perfect d, min_depth, max_depth⟩,
      ⟨fun _ => d - min_depth, 1⟩, ?_, rfl⟩
    unfold TreeGen.perfect gen_range
    rw [hmod, if_pos (by omega)]
    simp [hval]
  · intro hd1 hd2 hM
    have hmod : (max_depth + 1) % USIZE_MOD = max_depth + 1 :=
      Nat.mod_eq_of_lt hM
    have hval : min_depth + (d - min_depth) % (max_depth + 1 - min_depth) = d := by
      rw [Nat.mod_eq_of_lt (by omega)]
      omega
    refine ⟨⟨TreeGenMode.FullRanged d, min_depth, max_depth⟩,
      ⟨fun _ => d - min_depth, 1⟩, ?_, rfl⟩
    unfold TreeGen.full_ranged gen_range
    rw [hmod, if_pos (by omega)]
    simp [hval]

/-- Witness for C6 at bounds `[0, 3]`, target `chosen_depth = 3` (the
upper bound itself is attainable). -/
theorem C6_chosen_depth_in_range_witness :
    (0 : Nat) ≤ 3 ∧
    (∃ tg₁ s₂, TreeGen.perfect ⟨fun _ => 3 - 0, 0⟩ 0 3 = some (tg₁, s₂) ∧
      tg₁.mode = TreeGenMode.Perfect 3) :=
  ⟨by decide,
    (C6_chosen_depth_in_range 0 3 3 srcOnes srcOnes
        ⟨TreeGenMode.Full, 0, 3⟩ (by decide)).2.2.1
      (by decide) (by decide) (by decide)⟩
